import Mathlib

/-!
Shallow embedding of the MCSManager chat-plugin core (src/main.py) and
verification of its specification claims.

The embedding models, faithfully to the Python source:
  * `InstanceCooldownManager` (main.py lines 12-24) as a map from instance id
    to last-action timestamp, with the wall clock passed explicitly;
  * `make_mcsm_request` (lines 103-152) as a total function from the abstract
    outcome of the underlying HTTP exchange to the returned Python object
    (JSON-like value);
  * the instance directory built by `mcsm_list` (lines 267-395): collection of
    instances across nodes, the stable sort by name, the ambiguity set, and
    the three caches (`instances`, `name_to_id`, `uuid_to_id`);
  * `_get_instance_by_identifier` (lines 160-188) and the error
    classification performed by its callers (lines 405-411);
  * the cooldown-recording control flow shared by `mcsm_start` (397-445) and
    `mcsm_stop` (447-495);
  * the status aggregation of `mcsm_status` (578-677).

Python wall-clock timestamps (floats) are modelled as integer time units, as
in the specification; Python's stable `list.sort(key=...)` is modelled by
`List.insertionSort` (a stable sort) on the same key; Python `str.isdigit` is
modelled over ASCII digits; JSON bodies are modelled by an inductive `Json`
type; floats appearing in the overview payload are modelled as rationals.
-/

/-! ### Python string primitives

Python's `str.strip()`, slicing `s[:n]`, and code-point string comparison,
modelled over the character list of the string (kernel-computable). -/

/-- Python `str.strip()`: remove leading and trailing whitespace. -/
def pyStrip (s : String) : String :=
  String.mk (((s.toList.dropWhile Char.isWhitespace).reverse.dropWhile Char.isWhitespace).reverse)

/-- Python `s[:n]`: the first `n` characters. -/
def pyTake (s : String) (n : Nat) : String :=
  String.mk (s.toList.take n)

/-- Python's `<` on strings: lexicographic comparison of code points. -/
def charListLt : List Char → List Char → Bool
  | [], [] => false
  | [], _ :: _ => true
  | _ :: _, [] => false
  | c :: cs, d :: ds =>
    if c < d then true else if d < c then false else charListLt cs ds

/-- Strict code-point order on strings. -/
def strLt (a b : String) : Bool := charListLt a.toList b.toList

/-- Non-strict code-point order on strings (total preorder used as sort key). -/
def strLe (a b : String) : Bool := ! strLt b a

theorem charListLt_irrefl : ∀ x, charListLt x x = false
  | [] => rfl
  | c :: cs => by
    simp [charListLt, lt_self_iff_false, charListLt_irrefl cs]

theorem charListLt_nil_right : ∀ y, charListLt y [] = false
  | [] => rfl
  | _ :: _ => rfl

theorem charListLt_asymm : ∀ x y, charListLt x y = true → charListLt y x = false
  | [], [] => by simp [charListLt]
  | [], _ :: _ => by simp [charListLt]
  | _ :: _, [] => by simp [charListLt]
  | c :: cs, d :: ds => by
    by_cases hcd : c < d
    · simp [charListLt, hcd, lt_asymm hcd]
    · by_cases hdc : d < c
      · simp [charListLt, hcd, hdc]
      · simp only [charListLt, if_neg hcd, if_neg hdc]
        exact charListLt_asymm cs ds

theorem charListLt_connex : ∀ x y, charListLt x y = false → charListLt y x = false → x = y
  | [], [], _, _ => rfl
  | [], _ :: _, h1, _ => by simp [charListLt] at h1
  | _ :: _, [], _, h2 => by simp [charListLt] at h2
  | c :: cs, d :: ds, h1, h2 => by
    by_cases hcd : c < d
    · simp [charListLt, hcd] at h1
    · by_cases hdc : d < c
      · simp [charListLt, hdc] at h2
      · have hce : c = d := le_antisymm (not_lt.mp hdc) (not_lt.mp hcd)
        simp only [charListLt, if_neg hcd, if_neg hdc] at h1
        simp only [charListLt, if_neg hdc, if_neg hcd] at h2
        rw [hce, charListLt_connex cs ds h1 h2]

theorem charListLt_trans :
    ∀ x y z, charListLt x y = true → charListLt y z = true → charListLt x z = true
  | _, y, [], _, h2 => by rw [charListLt_nil_right y] at h2; exact absurd h2 (by simp)
  | x, [], _ :: _, h1, _ => by rw [charListLt_nil_right x] at h1; exact absurd h1 (by simp)
  | [], _ :: _, _ :: _, _, _ => rfl
  | c :: cs, d :: ds, e :: es, h1, h2 => by
    rcases lt_trichotomy c d with hcd | hcd | hcd
    · rcases lt_trichotomy d e with hde | hde | hde
      · simp [charListLt, lt_trans hcd hde]
      · subst hde; simp [charListLt, hcd]
      · simp [charListLt, if_neg (lt_asymm hde), if_pos hde] at h2
    · subst hcd
      rcases lt_trichotomy c e with hde | hde | hde
      · simp [charListLt, hde]
      · subst hde
        simp only [charListLt, lt_self_iff_false, if_false, if_neg] at h1 h2 ⊢
        exact charListLt_trans cs ds es h1 h2
      · simp [charListLt, if_neg (lt_asymm hde), if_pos hde] at h2
    · simp [charListLt, if_neg (lt_asymm hcd), if_pos hcd] at h1

theorem strLt_ne {a b : String} (h : strLt a b = true) : a ≠ b := by
  intro he
  subst he
  rw [strLt, charListLt_irrefl] at h
  exact absurd h (by simp)

/-! ### Cooldown gate (`InstanceCooldownManager`, main.py lines 12-24) -/

/-- The cooldown store: `self.cooldowns : Dict[str, float]`, modelled as a
partial map from instance id to the last-action timestamp. -/
def CooldownMap : Type := String → Option Int

/-- `__init__` (line 14-15): the store starts empty. -/
def initCooldowns : CooldownMap := fun _ => none

/-- `check_cooldown` (lines 17-20): `time.time() - self.cooldowns.get(id, 0) < 10`.
The current wall-clock time is the explicit `now` argument. -/
def check_cooldown (cd : CooldownMap) (now : Int) (instance_id : String) : Bool :=
  decide (now - ((cd instance_id).getD 0) < 10)

/-- `set_cooldown` (lines 22-24): `self.cooldowns[id] = time.time()`. -/
def set_cooldown (cd : CooldownMap) (now : Int) (instance_id : String) : CooldownMap :=
  fun s => if s = instance_id then some now else cd s

/-! ### Remote client (`make_mcsm_request`, main.py lines 103-152) -/

/-- JSON-like Python values returned by `response.json()` and by the
synthesized error dictionaries. -/
inductive Json where
  | obj (fields : List (String × Json))
  | arr (elems : List Json)
  | str (s : String)
  | num (n : Int)
  | bool (b : Bool)
  | null
deriving Repr

/-- `dict.get(key)` on an object; `None` on anything else. -/
def Json.getKey : Json → String → Option Json
  | .obj fields, key => fields.lookup key
  | _, _ => none

/-- The abstract outcome of the underlying HTTP exchange performed inside the
`try` block of `make_mcsm_request`:
  * `response code body parsed` — an HTTP response was received; `parsed` is
    the result of `response.json()` (`.error msg` when the body is not JSON,
    with `msg` the decoder's message);
  * `connectTimeout` / `readTimeout` — `httpx.ConnectTimeout` /
    `httpx.ReadTimeout` was raised;
  * `otherError msg` — any other exception with message `msg`. -/
inductive HttpOutcome where
  | response (code : Int) (body : String) (parsed : Except String Json)
  | connectTimeout
  | readTimeout
  | otherError (msg : String)

/-- The method check on lines 122-131: only GET/POST/PUT/DELETE reach the
network (the source compares `method.upper()`; we take the method already
upper-cased). -/
def methodSupported (method : String) : Bool :=
  method = "GET" || method = "POST" || method = "PUT" || method = "DELETE"

/-- `make_mcsm_request` (lines 103-152), from the branch on the HTTP outcome
onward.  URL construction and query/header assembly (lines 105-119) do not
affect the returned value and are not modelled.  The function is total: every
failure is turned into a returned dictionary, never an exception. -/
def make_mcsm_request (method : String) (outcome : HttpOutcome) : Json :=
  if ¬ methodSupported method then
    Json.obj [("status", Json.num 400), ("error", Json.str "不支持的请求方法")]
  else
    match outcome with
    | .response code body parsed =>
      if code ≠ 200 then
        match parsed with
        | .ok j => j
        | .error _ =>
          Json.obj [("status", Json.num code),
            ("error", Json.str ("HTTP Error " ++ toString code ++ ": " ++ pyTake body 100 ++ "..."))]
      else
        match parsed with
        | .ok j => j
        | .error msg =>
          Json.obj [("status", Json.num 500), ("error", Json.str ("JSON解析失败: " ++ msg))]
    | .connectTimeout =>
      Json.obj [("status", Json.num 504), ("error", Json.str "连接超时 (ConnectTimeout)")]
    | .readTimeout =>
      Json.obj [("status", Json.num 504), ("error", Json.str "读取超时 (ReadTimeout)")]
    | .otherError msg =>
      Json.obj [("status", Json.num 500), ("error", Json.str msg)]

/-! ### Instance directory: collection (`mcsm_list`, main.py lines 288-324) -/

/-- One element of a node's instance list as returned by
`/service/remote_service_instances`: the fields read on lines 312-317.
`nickname` is `instance.get("config", {}).get("nickname")`; `status` is the
top-level `instance.get("status")`; `infoStatus` is
`instance["info"].get("status")` when an `info` object is present. -/
structure RawInstance where
  nickname : Option String
  instanceUuid : String
  status : Option Int
  infoStatus : Option Int
deriving DecidableEq

/-- One node as seen by the collection loop: its uuid and the outcome of the
per-node instance fetch.  `instancesResp = none` models a fetch whose
normalized status is not 200 (the node is skipped, line 304-306); `some l`
models a successful fetch whose unwrapped instance list is `l` (the
`data`/`data.data` shape tolerance of line 310 yields the same list either
way). -/
structure NodeFetch where
  uuid : String
  instancesResp : Option (List RawInstance)
deriving DecidableEq

/-- A collected instance (the dict appended on lines 319-324). -/
structure Inst where
  name : String
  uuid : String
  daemonId : String
  status : Option Int
deriving DecidableEq

/-- Line 313: `instance.get("config", {}).get("nickname") or "未命名"` — the
`or` also replaces an empty nickname by the placeholder. -/
def instName (r : RawInstance) : String :=
  match r.nickname with
  | some s => if s = "" then "未命名" else s
  | none => "未命名"

/-- Lines 313-324: build one collected instance from a raw one.  The status
falls back to `info.status` when the top-level status is absent
(lines 315-317). -/
def toInst (nodeUuid : String) (r : RawInstance) : Inst :=
  { name := instName r
  , uuid := r.instanceUuid
  , daemonId := nodeUuid
  , status := (r.status).orElse (fun _ => r.infoStatus) }

/-- Lines 292-324: `all_instances`, collected node by node in order; a node
whose fetch failed contributes nothing (`continue`, line 306). -/
def collectInstances (nodes : List NodeFetch) : List Inst :=
  nodes.foldl
    (fun acc node =>
      match node.instancesResp with
      | none => acc
      | some insts => acc ++ insts.map (toInst node.uuid))
    []

/-! ### Instance directory: sort, ambiguity, caches (lines 326-385) -/

/-- The sort key relation of line 327 (`all_instances.sort(key=lambda x:
x['name'])`): compare by name with the code-point (ordinal, case-sensitive)
string order.  Python's `list.sort` is stable; `List.insertionSort` with this
relation is the same stable sort. -/
def nameLe (a b : Inst) : Prop := strLe a.name b.name = true

instance : DecidableRel nameLe := fun a b => inferInstanceAs (Decidable (strLe a.name b.name = true))

instance : IsTotal Inst nameLe := ⟨by
  intro a b
  by_cases h : charListLt b.name.toList a.name.toList = true
  · right
    simp only [nameLe, strLe, strLt, charListLt_asymm _ _ h, Bool.not_false]
  · left
    simp only [nameLe, strLe, strLt, Bool.not_eq_true] at h
    simp only [nameLe, strLe, strLt, Bool.not_eq_true']
    exact h⟩

instance : IsTrans Inst nameLe := ⟨by
  intro a b c hab hbc
  simp only [nameLe, strLe, strLt, Bool.not_eq_true'] at hab hbc ⊢
  by_cases hca : charListLt c.name.toList a.name.toList = true
  · exfalso
    by_cases hbc2 : charListLt b.name.toList c.name.toList = true
    · have := charListLt_trans _ _ _ hbc2 hca
      rw [this] at hab
      exact absurd hab (by simp)
    · have hbc2 : charListLt b.name.toList c.name.toList = false := by
        simpa using hbc2
      have : b.name.toList = c.name.toList := charListLt_connex _ _ hbc2 hbc
      rw [← this] at hca
      rw [hca] at hab
      exact absurd hab (by simp)
  · simpa using hca⟩

/-- Lines 330-335: the set of names with more than one occurrence (a Python
set, modelled as a duplicate-free list). -/
def ambiguousNames (l : List Inst) : List String :=
  ((l.map Inst.name).dedup).filter (fun n => 1 < (l.map Inst.name).count n)

/-- One entry of the `instances` cache (lines 370-376); `index` is stored as
a string, `str(current_index)`. -/
structure CachedInstance where
  index : String
  name : String
  uuid : String
  daemonId : String
  status : Option Int
deriving DecidableEq

/-- Lines 370-378: the `instances` cache entries, numbered from `k` in list
order (`current_index` starts at 1 and increments per instance). -/
def cacheInstancesFrom : Nat → List Inst → List CachedInstance
  | _, [] => []
  | k, i :: rest =>
    { index := toString k, name := i.name, uuid := i.uuid
    , daemonId := i.daemonId, status := i.status } :: cacheInstancesFrom (k + 1) rest

/-- Lines 381-383: the `name_to_id` dict.  Only instances whose name is not
in `ambiguous_names` are inserted; a later insertion with the same key
overwrites an earlier one (Python dict semantics), hence the recursive call
on the tail takes priority. -/
def nameMapOf (amb : List String) : List Inst → String → Option (String × String)
  | [], _ => none
  | i :: rest, s =>
    match nameMapOf amb rest s with
    | some v => some v
    | none =>
      if i.name ∈ amb then none
      else if s = i.name then some (i.daemonId, i.uuid) else none

/-- Line 379: the `uuid_to_id` dict; every instance is inserted, a later
insertion with the same key overwrites an earlier one. -/
def uuidMapOf : List Inst → String → Option (String × String)
  | [], _ => none
  | i :: rest, s =>
    match uuidMapOf rest s with
    | some v => some v
    | none => if s = i.uuid then some (i.daemonId, i.uuid) else none

/-- The `self.instance_data` cache (lines 62-67 / 338-341). -/
structure InstanceData where
  instances : List CachedInstance
  name_to_id : String → Option (String × String)
  uuid_to_id : String → Option (String × String)
  ambiguous_names : List String

/-- The refresh performed by `mcsm_list` (lines 288-385): collect, sort by
name (stable), compute the ambiguity set, and rebuild the three caches.  The
single Python loop of lines 351-385 builds `instances`, `name_to_id` and
`uuid_to_id` together; they are modelled by the three functions above, each
faithful to its part of the loop. -/
def refresh (nodes : List NodeFetch) : InstanceData :=
  let sorted := List.insertionSort nameLe (collectInstances nodes)
  let amb := ambiguousNames sorted
  { instances := cacheInstancesFrom 1 sorted
  , name_to_id := nameMapOf amb sorted
  , uuid_to_id := uuidMapOf sorted
  , ambiguous_names := amb }

/-! ### Identifier resolution (`_get_instance_by_identifier`, lines 160-188) -/

/-- Python `str.isdigit` (modelled over ASCII digits): non-empty and all
characters are digits. -/
def isDigitStr (s : String) : Bool :=
  ¬ s = "" && s.toList.all Char.isDigit

/-- Python `int(...)` on a digit string. -/
def strToNat (s : String) : Nat :=
  s.toList.foldl (fun n c => 10 * n + (c.toNat - Char.toNat '0')) 0

/-- Lines 175-188, the second step of the lookup: refuse ambiguous names,
then try `name_to_id`, then `uuid_to_id`, else `None`. -/
def fallbackLookup (d : InstanceData) (identifier : String) : Option (String × String) :=
  if identifier ∈ d.ambiguous_names then none
  else
    match d.name_to_id identifier with
    | some r => some r
    | none => d.uuid_to_id identifier

/-- `_get_instance_by_identifier` (lines 160-188).  The identifier is
trimmed; an all-digit identifier is first tried as a 1-based position
(`if 0 < index <= len(instances): return instances[index - 1]`), and —
exactly as in the source — an out-of-range position falls through to the
name/uuid lookup rather than returning. -/
def getInstanceByIdentifier (d : InstanceData) (identRaw : String) : Option (String × String) :=
  let identifier := pyStrip identRaw
  let step1 : Option (String × String) :=
    if isDigitStr identifier then
      let index := strToNat identifier
      if 0 < index then
        match d.instances.get? (index - 1) with
        | some inst => some (inst.daemonId, inst.uuid)
        | none => none
      else none
    else none
  match step1 with
  | some r => some r
  | none => fallbackLookup d identifier

/-- How the callers of `_get_instance_by_identifier` classify its result
(e.g. `mcsm_start`, lines 405-411): a `None` result is reported as a
duplicate-name failure when the identifier is in `ambiguous_names`, and as
not-found otherwise. -/
inductive ResolveResult where
  | found (daemonId uuid : String)
  | ambiguous
  | notFound
deriving DecidableEq

/-- Resolution plus the caller's error classification (lines 405-411). -/
def classifyResolve (d : InstanceData) (identifier : String) : ResolveResult :=
  match getInstanceByIdentifier d identifier with
  | some (a, b) => .found a b
  | none => if identifier ∈ d.ambiguous_names then .ambiguous else .notFound

/-! ### Start/stop control flow (`mcsm_start` lines 397-445, `mcsm_stop` lines 447-495)

The two handlers are identical with respect to resolution, cooldown and the
remote call; both are modelled by `runStartStop`.  The permission gate and
the message rendering do not touch the cooldown map and are not modelled.
The remote call itself is abstracted by the normalized `status` of its
result (`respStatus`); `tCheck` is the wall-clock time of the cooldown check
(line 416/466) and `tSet` the time of the cooldown write (line 444/494). -/

/-- How a start/stop invocation ends. -/
inductive OpResult where
  | resolveFailed (wasAmbiguous : Bool)
  | cooling
  | remoteFailed (status : Int)
  | ok
deriving DecidableEq

/-- The shared control flow of `mcsm_start`/`mcsm_stop`: resolve the
identifier (returning with the ambiguity classification of lines 405-411 on
failure), reject while cooling (416-418), call the remote and return on a
non-200 result (432-442) leaving the cooldown map untouched, and only on a
200 result record the cooldown (444).  Returns the outcome and the new
cooldown map. -/
def runStartStop (d : InstanceData) (cd : CooldownMap) (tCheck tSet : Int)
    (identifier : String) (respStatus : Int) : OpResult × CooldownMap :=
  match getInstanceByIdentifier d identifier with
  | none => (.resolveFailed (decide (identifier ∈ d.ambiguous_names)), cd)
  | some (_daemonId, instance_id) =>
    if check_cooldown cd tCheck instance_id then (.cooling, cd)
    else if respStatus ≠ 200 then (.remoteFailed respStatus, cd)
    else (.ok, set_cooldown cd tSet instance_id)

/-! ### Status aggregator (`mcsm_status`, main.py lines 578-677) -/

/-- The `system` object of one node of the overview payload (fields read on
lines 642-650); floats are modelled as rationals. -/
structure SysInfo where
  version : Option String
  release : Option String
  cpuUsage : Option ℚ
  totalmem : Option ℚ
  memUsage : Option ℚ
deriving DecidableEq

/-- The `instance` object of one node of the overview payload (lines 636-637,
655-656). -/
structure InstCounts where
  total : Option Int
  running : Option Int
deriving DecidableEq

/-- One entry of `data["remote"]` as read by `mcsm_status` (lines 632-656). -/
structure NodeOverview where
  remarks : Option String
  hostname : Option String
  version : Option String
  available : Bool
  system : Option SysInfo
  instanceInfo : Option InstCounts
deriving DecidableEq

/-- `inst_info.get("total", 0)` where `inst_info = node.get("instance", {})`
(lines 634, 636): a missing `instance` object or a missing `total` field
contributes 0. -/
def advertisedTotal (n : NodeOverview) : Int :=
  ((n.instanceInfo).bind InstCounts.total).getD 0

/-- `inst_info.get("running", 0)` (lines 634, 637). -/
def advertisedRunning (n : NodeOverview) : Int :=
  ((n.instanceInfo).bind InstCounts.running).getD 0

/-- The accumulation loop of lines 603-604, 631-637: fold over every node of
`data["remote"]` (available or not), adding the advertised total and running
figures. -/
def sumInstanceCounts (nodes : List NodeOverview) : Int × Int :=
  nodes.foldl (fun acc node => (acc.1 + advertisedTotal node, acc.2 + advertisedRunning node)) (0, 0)

/-- The fleet-wide `(total_instances, running_instances)` pair of
`mcsm_status`: zero when the payload has no `remote` list (line 631). -/
def fleetCounts (remote : Option (List NodeOverview)) : Int × Int :=
  match remote with
  | none => (0, 0)
  | some nodes => sumInstanceCounts nodes

/-- `node_sys.get('cpuUsage', 0)` where `node_sys = node.get("system", {})`
(lines 633, 645): the CPU fraction used for display, with no clamping. -/
def cpuFractionOf (n : NodeOverview) : ℚ :=
  ((n.system).bind SysInfo.cpuUsage).getD 0

/-- Python `f"{x:.2f}"` for the non-negative values at hand: fixed-point with
two decimals.  (Python rounds half to even on the underlying binary float;
the difference can only show at exact half-hundredths, which the claims do
not exercise.) -/
def format2f (q : ℚ) : String :=
  let c : Int := ⌊q * 100 + 1 / 2⌋
  let whole := c / 100
  let frac := c % 100
  toString whole ++ "." ++ (if frac < 10 then "0" ++ toString frac else toString frac)

/-- Line 645: `f"{(node_sys.get('cpuUsage', 0) * 100):.2f}%"`. -/
def nodeCpuPercent (n : NodeOverview) : String :=
  format2f (cpuFractionOf n * 100) ++ "%"

/-! ### Characterization lemmas for the directory caches -/

/-- The identifying fields of a cache entry. -/
def cSig (c : CachedInstance) : String × String × String := (c.name, c.uuid, c.daemonId)

/-- The identifying fields of a collected instance. -/
def iSig (i : Inst) : String × String × String := (i.name, i.uuid, i.daemonId)

theorem cacheInstancesFrom_map_sig :
    ∀ (k : Nat) (l : List Inst), (cacheInstancesFrom k l).map cSig = l.map iSig
  | _, [] => rfl
  | k, i :: rest => by
    simp [cacheInstancesFrom, cSig, iSig, cacheInstancesFrom_map_sig (k + 1) rest]

theorem cacheInstancesFrom_map_name :
    ∀ (k : Nat) (l : List Inst),
      (cacheInstancesFrom k l).map CachedInstance.name = l.map Inst.name
  | _, [] => rfl
  | k, i :: rest => by
    simp [cacheInstancesFrom, cacheInstancesFrom_map_name (k + 1) rest]

theorem cacheInstancesFrom_map_index :
    ∀ (k : Nat) (l : List Inst),
      (cacheInstancesFrom k l).map CachedInstance.index =
        (List.range l.length).map (fun j => toString (k + j))
  | _, [] => rfl
  | k, i :: rest => by
    rw [cacheInstancesFrom, List.map_cons, cacheInstancesFrom_map_index (k + 1) rest,
      List.length_cons, List.range_succ_eq_map, List.map_cons, List.map_map]
    refine congrArg₂ List.cons (by simp) (List.map_congr_left fun j _ => ?_)
    simp only [Function.comp_apply]
    exact congrArg toString (by omega)

theorem mem_cacheInstancesFrom :
    ∀ {k : Nat} {l : List Inst} {c : CachedInstance}, c ∈ cacheInstancesFrom k l →
      ∃ i ∈ l, i.name = c.name ∧ i.uuid = c.uuid ∧ i.daemonId = c.daemonId := by
  intro k l
  induction l generalizing k with
  | nil => intro c hc; simp [cacheInstancesFrom] at hc
  | cons i rest ih =>
    intro c hc
    rcases List.mem_cons.mp hc with hc | hc
    · subst hc
      exact ⟨i, List.mem_cons_self i rest, rfl, rfl, rfl⟩
    · obtain ⟨j, hj, h⟩ := ih hc
      exact ⟨j, List.mem_cons_of_mem i hj, h⟩

theorem cacheInstancesFrom_mem_of :
    ∀ {k : Nat} {l : List Inst} {i : Inst}, i ∈ l →
      ∃ c ∈ cacheInstancesFrom k l, c.name = i.name ∧ c.uuid = i.uuid ∧ c.daemonId = i.daemonId := by
  intro k l
  induction l generalizing k with
  | nil => intro i hi; simp at hi
  | cons a rest ih =>
    intro i hi
    rcases List.mem_cons.mp hi with hi | hi
    · subst hi
      exact ⟨_, List.mem_cons_self _ _, rfl, rfl, rfl⟩
    · obtain ⟨c, hc, h⟩ := ih (k := k + 1) hi
      exact ⟨c, List.mem_cons_of_mem _ hc, h⟩

theorem nameMapOf_eq_none_of_mem_amb :
    ∀ (amb : List String) (l : List Inst) (s : String), s ∈ amb → nameMapOf amb l s = none
  | _, [], _, _ => rfl
  | amb, i :: rest, s, hs => by
    simp only [nameMapOf, nameMapOf_eq_none_of_mem_amb amb rest s hs]
    by_cases hin : i.name ∈ amb
    · simp [hin]
    · have hne : ¬ s = i.name := fun he => hin (he ▸ hs)
      simp [hin, hne]

theorem nameMapOf_isSome_of :
    ∀ (amb : List String) (l : List Inst) (s : String),
      (∃ i ∈ l, i.name = s ∧ s ∉ amb) → (nameMapOf amb l s).isSome = true
  | amb, [], s, h => by simp at h
  | amb, i :: rest, s, h => by
    simp only [nameMapOf]
    cases hr : nameMapOf amb rest s with
    | some v => rfl
    | none =>
      obtain ⟨j, hj, hname, hamb⟩ := h
      rcases List.mem_cons.mp hj with hj | hj
      · subst hj
        have hin : j.name ∉ amb := hname ▸ hamb
        simp [hin, hname.symm]
      · have := nameMapOf_isSome_of amb rest s ⟨j, hj, hname, hamb⟩
        rw [hr] at this
        simp at this

theorem nameMapOf_eq_some :
    ∀ (amb : List String) (l : List Inst) (s : String) (v : String × String),
      nameMapOf amb l s = some v →
        ∃ i ∈ l, i.name = s ∧ i.name ∉ amb ∧ v = (i.daemonId, i.uuid)
  | amb, [], s, v, h => by simp [nameMapOf] at h
  | amb, i :: rest, s, v, h => by
    simp only [nameMapOf] at h
    cases hr : nameMapOf amb rest s with
    | some w =>
      rw [hr] at h
      obtain rfl : w = v := Option.some.inj h
      obtain ⟨j, hj, hx⟩ := nameMapOf_eq_some amb rest s w hr
      exact ⟨j, List.mem_cons_of_mem _ hj, hx⟩
    | none =>
      rw [hr] at h
      by_cases hin : i.name ∈ amb
      · simp [hin] at h
      · by_cases hse : s = i.name
        · simp [hin, hse] at h
          exact ⟨i, List.mem_cons_self _ _, hse.symm, hin, h.symm⟩
        · simp [hin, hse] at h

theorem nameMapOf_eq_none_of_not_mem :
    ∀ (amb : List String) (l : List Inst) (s : String),
      (∀ i ∈ l, i.name ≠ s) → nameMapOf amb l s = none
  | _, [], _, _ => rfl
  | amb, i :: rest, s, h => by
    have hr := nameMapOf_eq_none_of_not_mem amb rest s
      (fun j hj => h j (List.mem_cons_of_mem _ hj))
    have hne : ¬ s = i.name := fun he => h i (List.mem_cons_self _ _) he.symm
    simp [nameMapOf, hr, hne]

theorem uuidMapOf_isSome_of :
    ∀ (l : List Inst) (s : String), (∃ i ∈ l, i.uuid = s) → (uuidMapOf l s).isSome = true
  | [], s, h => by simp at h
  | i :: rest, s, h => by
    simp only [uuidMapOf]
    cases hr : uuidMapOf rest s with
    | some v => rfl
    | none =>
      obtain ⟨j, hj, huuid⟩ := h
      rcases List.mem_cons.mp hj with hj | hj
      · subst hj; simp [huuid.symm]
      · have := uuidMapOf_isSome_of rest s ⟨j, hj, huuid⟩
        rw [hr] at this
        simp at this

theorem uuidMapOf_eq_some :
    ∀ (l : List Inst) (s : String) (v : String × String),
      uuidMapOf l s = some v → ∃ i ∈ l, i.uuid = s ∧ v = (i.daemonId, i.uuid)
  | [], s, v, h => by simp [uuidMapOf] at h
  | i :: rest, s, v, h => by
    simp only [uuidMapOf] at h
    cases hr : uuidMapOf rest s with
    | some w =>
      rw [hr] at h
      obtain rfl : w = v := Option.some.inj h
      obtain ⟨j, hj, hx⟩ := uuidMapOf_eq_some rest s w hr
      exact ⟨j, List.mem_cons_of_mem _ hj, hx⟩
    | none =>
      rw [hr] at h
      by_cases hse : s = i.uuid
      · simp [hse] at h
        exact ⟨i, List.mem_cons_self _ _, hse.symm, h.symm⟩
      · simp [hse] at h

theorem uuidMapOf_eq_none_of_not_mem :
    ∀ (l : List Inst) (s : String), (∀ i ∈ l, i.uuid ≠ s) → uuidMapOf l s = none
  | [], _, _ => rfl
  | i :: rest, s, h => by
    have hr := uuidMapOf_eq_none_of_not_mem rest s
      (fun j hj => h j (List.mem_cons_of_mem _ hj))
    have hne : ¬ s = i.uuid := fun he => h i (List.mem_cons_self _ _) he.symm
    simp [uuidMapOf, hr, hne]

theorem mem_ambiguousNames {l : List Inst} {n : String} :
    n ∈ ambiguousNames l ↔ 1 < (l.map Inst.name).count n := by
  unfold ambiguousNames
  rw [List.mem_filter, List.mem_dedup]
  constructor
  · rintro ⟨-, h⟩
    exact of_decide_eq_true h
  · intro h
    refine ⟨?_, decide_eq_true h⟩
    have : 0 < (l.map Inst.name).count n := lt_trans Nat.zero_lt_one h
    exact List.count_pos_iff.mp this

/-! ### Stability of the sort -/

theorem strLt_of_not_nameLe {a b : Inst} (h : ¬ nameLe a b) : strLt b.name a.name = true := by
  by_contra hx
  apply h
  simp only [nameLe, strLe]
  simp only [Bool.not_eq_true] at hx
  simp [hx]

theorem filter_orderedInsert_name (a : Inst) (l : List Inst) (n : String) :
    (List.orderedInsert nameLe a l).filter (fun x => decide (x.name = n)) =
      if a.name = n then a :: l.filter (fun x => decide (x.name = n))
      else l.filter (fun x => decide (x.name = n)) := by
  induction l with
  | nil =>
    by_cases h : a.name = n <;> simp [List.orderedInsert, h]
  | cons b t ih =>
    by_cases hr : nameLe a b
    · rw [List.orderedInsert_of_le _ _ hr]
      by_cases h : a.name = n <;> simp [List.filter_cons, h]
    · have hun : List.orderedInsert nameLe a (b :: t) = b :: List.orderedInsert nameLe a t := by
        simp [List.orderedInsert, hr]
      rw [hun]
      have hblt : strLt b.name a.name = true := strLt_of_not_nameLe hr
      by_cases h : a.name = n
      · have hb : ¬ (b.name = n) := fun he => strLt_ne hblt (he.trans h.symm)
        simp [List.filter_cons, hb, ih, h]
      · simp [List.filter_cons, ih, h]

theorem filter_insertionSort_name (l : List Inst) (n : String) :
    (List.insertionSort nameLe l).filter (fun x => decide (x.name = n)) =
      l.filter (fun x => decide (x.name = n)) := by
  induction l with
  | nil => rfl
  | cons a t ih =>
    show (List.orderedInsert nameLe a (List.insertionSort nameLe t)).filter _ = _
    rw [filter_orderedInsert_name, ih]
    by_cases h : a.name = n <;> simp [List.filter_cons, h]

theorem sorted_cacheInstancesFrom (k : Nat) (l : List Inst) (hs : List.Sorted nameLe l) :
    List.Sorted (fun a b : CachedInstance => strLe a.name b.name = true)
      (cacheInstancesFrom k l) := by
  have h1 : List.Pairwise (fun x y : String => strLe x y = true) (l.map Inst.name) :=
    List.pairwise_map.mpr hs
  rw [← cacheInstancesFrom_map_name k l] at h1
  exact List.pairwise_map.mp h1

theorem cacheInstancesFrom_length (k : Nat) (l : List Inst) :
    (cacheInstancesFrom k l).length = l.length := by
  have := congrArg List.length (cacheInstancesFrom_map_name k l)
  simpa using this

/-- `refresh` written with its three caches spelled out. -/
theorem refresh_def (nodes : List NodeFetch) :
    refresh nodes =
      { instances := cacheInstancesFrom 1 (List.insertionSort nameLe (collectInstances nodes))
      , name_to_id := nameMapOf (ambiguousNames (List.insertionSort nameLe (collectInstances nodes)))
          (List.insertionSort nameLe (collectInstances nodes))
      , uuid_to_id := uuidMapOf (List.insertionSort nameLe (collectInstances nodes))
      , ambiguous_names := ambiguousNames (List.insertionSort nameLe (collectInstances nodes)) } := rfl

/-! ### Fixtures -/

/-- The specification's round-trip fixture: nodes `n1`, `n2`; instances
`B(u1)` on `n1`, `A(u2)` on `n2`, `A(u3)` on `n1`.  Each node's inventory
lists its instances in the fixture's order, so `n1` yields `[B(u1), A(u3)]`
and `n2` yields `[A(u2)]`. -/
def fixC2 : List NodeFetch :=
  [{ uuid := "n1", instancesResp := some
      [{ nickname := some "B", instanceUuid := "u1", status := none, infoStatus := none },
       { nickname := some "A", instanceUuid := "u3", status := none, infoStatus := none }] },
   { uuid := "n2", instancesResp := some
      [{ nickname := some "A", instanceUuid := "u2", status := none, infoStatus := none }] }]

/-- A snapshot with a single instance whose display name is the digit
string "5". -/
def fixC1 : List NodeFetch :=
  [{ uuid := "n1", instancesResp := some
      [{ nickname := some "5", instanceUuid := "u9", status := some 0, infoStatus := none }] }]

/-- A snapshot with two instances sharing the digit name "1". -/
def fixC3 : List NodeFetch :=
  [{ uuid := "n1", instancesResp := some
      [{ nickname := some "1", instanceUuid := "ua", status := none, infoStatus := none },
       { nickname := some "1", instanceUuid := "ub", status := none, infoStatus := none }] }]

/-! ### Claims about the remote client -/

/-- **C5**: for every remote call whose HTTP response has a status other
than 200, the client first returns the parsed body if the body parses, and
otherwise returns a result whose `status` equals the HTTP status and whose
error string contains the HTTP status and the first 100 characters of the
body; the function is total, so no failure escapes. -/
theorem C5_non200_normalization (method : String) (code : Int) (body : String)
    (parsed : Except String Json) (hm : methodSupported method = true) (hc : code ≠ 200) :
    (∀ j, parsed = .ok j → make_mcsm_request method (.response code body parsed) = j)
    ∧ (∀ e, parsed = .error e →
        make_mcsm_request method (.response code body parsed) =
          Json.obj [("status", Json.num code),
            ("error", Json.str ("HTTP Error " ++ toString code ++ ": " ++ pyTake body 100 ++ "..."))])
    ∧ (∃ p q, "HTTP Error " ++ toString code ++ ": " ++ pyTake body 100 ++ "..." =
        p ++ toString code ++ q)
    ∧ (∃ p q, "HTTP Error " ++ toString code ++ ": " ++ pyTake body 100 ++ "..." =
        p ++ pyTake body 100 ++ q) := by
  refine ⟨?_, ?_, ?_, ?_⟩
  · intro j hj
    subst hj
    simp [make_mcsm_request, hm, hc]
  · intro e he
    subst he
    simp [make_mcsm_request, hm, hc]
  · exact ⟨"HTTP Error ", ": " ++ pyTake body 100 ++ "...", by simp [String.append_assoc]⟩
  · exact ⟨"HTTP Error " ++ toString code ++ ": ", "...", by simp [String.append_assoc]⟩

/-- **C5** witness: an HTTP 503 response with the non-JSON body
"Service Unavailable" yields the synthesized `status = 503` result with the
truncated body inside the error string. -/
theorem C5_non200_normalization_witness :
    make_mcsm_request "GET" (.response 503 "Service Unavailable" (.error "Expecting value")) =
      Json.obj [("status", Json.num 503),
        ("error", Json.str ("HTTP Error " ++ toString (503 : Int) ++ ": " ++
          pyTake "Service Unavailable" 100 ++ "..."))] :=
  (C5_non200_normalization "GET" 503 "Service Unavailable" (.error "Expecting value")
    (by decide) (by decide)).2.1 "Expecting value" rfl

/-- **C6** (amended): a connect timeout returns status 504 with error string
"连接超时 (ConnectTimeout)", a read timeout returns status 504 with error
string "读取超时 (ReadTimeout)", and any other transport failure returns
status 500 with the cause as the error; the client never throws for a
network-layer fault (the model is a total function) but always returns a
result whose status encodes the failure class. -/
theorem C6_transport_failures (method : String) (msg : String)
    (hm : methodSupported method = true) :
    make_mcsm_request method .connectTimeout =
      Json.obj [("status", Json.num 504), ("error", Json.str "连接超时 (ConnectTimeout)")]
    ∧ make_mcsm_request method .readTimeout =
      Json.obj [("status", Json.num 504), ("error", Json.str "读取超时 (ReadTimeout)")]
    ∧ make_mcsm_request method (.otherError msg) =
      Json.obj [("status", Json.num 500), ("error", Json.str msg)] := by
  refine ⟨?_, ?_, ?_⟩ <;> simp [make_mcsm_request, hm]

/-- **C6** witness: the three transport failure classes at method GET. -/
theorem C6_transport_failures_witness :
    make_mcsm_request "GET" .connectTimeout =
      Json.obj [("status", Json.num 504), ("error", Json.str "连接超时 (ConnectTimeout)")]
    ∧ make_mcsm_request "GET" (.otherError "boom") =
      Json.obj [("status", Json.num 500), ("error", Json.str "boom")] :=
  ⟨(C6_transport_failures "GET" "boom" (by decide)).1,
   (C6_transport_failures "GET" "boom" (by decide)).2.2⟩

/-- **C6** counterexample: the claim's quoted error string
"connect timeout" is not what a connect timeout returns — the code's error
string is "连接超时 (ConnectTimeout)". -/
theorem C6_error_string_differs :
    ¬ ((make_mcsm_request "GET" HttpOutcome.connectTimeout).getKey "error" =
        some (Json.str "connect timeout")) := by
  intro h
  rw [show (make_mcsm_request "GET" HttpOutcome.connectTimeout).getKey "error" =
      some (Json.str "连接超时 (ConnectTimeout)") from rfl] at h
  have h2 := Option.some.inj h
  have h3 : "连接超时 (ConnectTimeout)" = "connect timeout" := by injection h2
  exact absurd h3 (by decide)

/-! ### Claims about the cooldown gate -/

/-- **C7** (amended): `is_cooling` is governed by the 10-unit window with a
missing record defaulting to time 0: after construction `is_cooling x` is
false for every clock value that is at least 10 (in particular for every
epoch-based wall clock); it is true immediately after `record x`; it is
false again once at least 10 time units have elapsed since `record x`; and
in general it is true iff strictly less than 10 units have elapsed since the
last recorded action (taken as time 0 when there is none). -/
theorem C7_cooldown_window :
    (∀ (now : Int) (x : String), 10 ≤ now → check_cooldown initCooldowns now x = false)
    ∧ (∀ (cd : CooldownMap) (t : Int) (x : String),
        check_cooldown (set_cooldown cd t x) t x = true)
    ∧ (∀ (cd : CooldownMap) (t t2 : Int) (x : String), t + 10 ≤ t2 →
        check_cooldown (set_cooldown cd t x) t2 x = false)
    ∧ (∀ (cd : CooldownMap) (now : Int) (x : String),
        check_cooldown cd now x = true ↔ now - ((cd x).getD 0) < 10) := by
  refine ⟨?_, ?_, ?_, ?_⟩
  · intro now x h
    simp only [check_cooldown, initCooldowns, Option.getD_none, decide_eq_false_iff_not]
    omega
  · intro cd t x
    simp [check_cooldown, set_cooldown]
  · intro cd t t2 x h
    simp only [check_cooldown, set_cooldown, if_pos, Option.getD_some, decide_eq_false_iff_not]
    omega
  · intro cd now x
    simp [check_cooldown]

/-- **C7** witness: at clock 100 the fresh gate is not cooling; recording at
100 makes it cooling at 100; at clock 110 it is no longer cooling. -/
theorem C7_cooldown_window_witness :
    check_cooldown initCooldowns 100 "a" = false
    ∧ check_cooldown (set_cooldown initCooldowns 100 "a") 100 "a" = true
    ∧ check_cooldown (set_cooldown initCooldowns 100 "a") 110 "a" = false :=
  ⟨C7_cooldown_window.1 100 "a" (by decide),
   C7_cooldown_window.2.1 initCooldowns 100 "a",
   C7_cooldown_window.2.2.1 initCooldowns 100 110 "a" (by decide)⟩

/-- **C7** counterexample: the claim asserts `is_cooling x` is false
immediately after construction for every clock value, but at clock 5 the
fresh gate reports cooling (the missing record defaults to time 0 and
5 - 0 < 10). -/
theorem C7_false_at_small_clock :
    ¬ (check_cooldown initCooldowns 5 "a" = false) := by decide

/-! ### Claim about start/stop cooldown recording -/

/-- **C8**: for every start or stop operation the cooldown timestamp for the
resolved instance's unique id is recorded only when the remote call returns
status 200; on a non-200 result the cooldown map is unchanged, and an
immediate retry (at any time not earlier than the original check) passes
the cooldown check again. -/
theorem C8_cooldown_only_on_success (d : InstanceData) (cd : CooldownMap)
    (tCheck tSet : Int) (identifier : String) (respStatus : Int) :
    (respStatus ≠ 200 → (runStartStop d cd tCheck tSet identifier respStatus).2 = cd)
    ∧ ((runStartStop d cd tCheck tSet identifier respStatus).2 = cd
        ∨ (respStatus = 200 ∧ ∃ p, getInstanceByIdentifier d identifier = some p
            ∧ (runStartStop d cd tCheck tSet identifier respStatus).2 =
                set_cooldown cd tSet p.2))
    ∧ (∀ (p : String × String) (t3 : Int), getInstanceByIdentifier d identifier = some p →
        (runStartStop d cd tCheck tSet identifier respStatus).1 = .remoteFailed respStatus →
        tCheck ≤ t3 →
        check_cooldown (runStartStop d cd tCheck tSet identifier respStatus).2 t3 p.2 = false) := by
  cases hres : getInstanceByIdentifier d identifier with
  | none =>
    refine ⟨fun _ => ?_, Or.inl ?_, fun p t3 hp _ _ => ?_⟩
    · simp [runStartStop, hres]
    · simp [runStartStop, hres]
    · exact absurd hp (by simp)
  | some pr =>
    obtain ⟨dm, iid⟩ := pr
    by_cases hcool : check_cooldown cd tCheck iid = true
    · refine ⟨fun _ => ?_, Or.inl ?_, fun p t3 hp hrf _ => ?_⟩
      · simp [runStartStop, hres, hcool]
      · simp [runStartStop, hres, hcool]
      · rw [show (runStartStop d cd tCheck tSet identifier respStatus).1 = .cooling by
          simp [runStartStop, hres, hcool]] at hrf
        exact absurd hrf (by simp)
    · by_cases hresp : respStatus = 200
      · refine ⟨fun h => absurd hresp h, Or.inr ⟨hresp, (dm, iid), rfl, ?_⟩,
          fun p t3 hp hrf _ => ?_⟩
        · simp [runStartStop, hres, hcool, hresp]
        · rw [show (runStartStop d cd tCheck tSet identifier respStatus).1 = .ok by
            simp [runStartStop, hres, hcool, hresp]] at hrf
          exact absurd hrf (by simp)
      · have hrun : runStartStop d cd tCheck tSet identifier respStatus =
            (.remoteFailed respStatus, cd) := by
          simp [runStartStop, hres, hcool, hresp]
        refine ⟨fun _ => by rw [hrun], Or.inl (by rw [hrun]), fun p t3 hp _ ht => ?_⟩
        obtain rfl : (dm, iid) = p := Option.some.inj hp
        rw [hrun]
        simp only [check_cooldown, decide_eq_false_iff_not]
        simp only [check_cooldown, decide_eq_true_eq, not_lt] at hcool
        omega

/-- **C8** witness: on the round-trip fixture, starting instance "B" with a
remote failure (status 500) at clock 100 leaves the cooldown map untouched
and a retry at clock 102 still passes the cooldown check. -/
theorem C8_cooldown_only_on_success_witness :
    (runStartStop (refresh fixC2) initCooldowns 100 101 "B" 500).2 = initCooldowns
    ∧ check_cooldown (runStartStop (refresh fixC2) initCooldowns 100 101 "B" 500).2 102 "u1"
        = false :=
  ⟨(C8_cooldown_only_on_success (refresh fixC2) initCooldowns 100 101 "B" 500).1 (by decide),
   (C8_cooldown_only_on_success (refresh fixC2) initCooldowns 100 101 "B" 500).2.2
     ("n1", "u1") 102 (by decide) (by decide) (by decide)⟩

/-! ### Claims about the status aggregator -/

theorem foldl_instanceCounts :
    ∀ (nodes : List NodeOverview) (a b : Int),
      nodes.foldl (fun acc node => (acc.1 + advertisedTotal node, acc.2 + advertisedRunning node))
          (a, b)
        = (a + (nodes.map advertisedTotal).sum, b + (nodes.map advertisedRunning).sum)
  | [], a, b => by simp
  | n :: rest, a, b => by
    rw [List.foldl_cons, foldl_instanceCounts rest]
    simp only [List.map_cons, List.sum_cons, Prod.mk.injEq]
    exact ⟨by ring, by ring⟩

/-- **C9**: the fleet-wide total and running instance counts are the sums of
each listed node's advertised figures; the sums are invariant under the
nodes' availability flags (unavailable nodes contribute their advertised
figures just the same), and a node with no `instance` object contributes
zero rather than failing. -/
theorem C9_fleet_counts (remote : Option (List NodeOverview)) :
    fleetCounts remote =
      (((remote.getD []).map advertisedTotal).sum, ((remote.getD []).map advertisedRunning).sum)
    ∧ (∀ (nodes : List NodeOverview) (b : Bool),
        sumInstanceCounts (nodes.map (fun n => { n with available := b }))
          = sumInstanceCounts nodes)
    ∧ (∀ n : NodeOverview, n.instanceInfo = none →
        advertisedTotal n = 0 ∧ advertisedRunning n = 0) := by
  refine ⟨?_, ?_, ?_⟩
  · cases remote with
    | none => simp [fleetCounts]
    | some nodes =>
      show sumInstanceCounts nodes = _
      rw [sumInstanceCounts, foldl_instanceCounts]
      simp
  · intro nodes b
    rw [sumInstanceCounts, sumInstanceCounts, foldl_instanceCounts, foldl_instanceCounts,
      List.map_map]
    have h1 : ∀ f : NodeOverview → Int,
        (∀ n : NodeOverview, f { n with available := b } = f n) →
        nodes.map (f ∘ fun n => { n with available := b }) = nodes.map f := by
      intro f hf
      exact List.map_congr_left fun n _ => hf n
    rw [List.map_map, h1 advertisedTotal (fun n => rfl), h1 advertisedRunning (fun n => rfl)]
  · intro n h
    simp [advertisedTotal, advertisedRunning, h]

/-- An unavailable node advertising total 4 / running 2. -/
def c9NodeDown : NodeOverview :=
  { remarks := none, hostname := none, version := none, available := false,
    system := none, instanceInfo := some { total := some 4, running := some 2 } }

/-- A node with no `instance` object at all. -/
def c9NodeBare : NodeOverview :=
  { remarks := none, hostname := none, version := none, available := true,
    system := none, instanceInfo := none }

/-- **C9** witness: a node advertising total 4 / running 2 while flagged
unavailable and a node with no `instance` object sum to (4, 2). -/
theorem C9_fleet_counts_witness :
    fleetCounts (some [c9NodeDown, c9NodeBare]) = (4, 2)
    ∧ advertisedTotal c9NodeBare = 0 := by
  constructor
  · rw [(C9_fleet_counts _).1]
    decide
  · exact ((C9_fleet_counts none).2.2 c9NodeBare rfl).1

/-- The system object reporting `cpuUsage = 1.4` (out of the nominal 0–1
range). -/
def c10Sys : SysInfo :=
  { version := none, release := none, cpuUsage := some (7 / 5),
    totalmem := none, memUsage := none }

/-- A node carrying `c10Sys` as its system object. -/
def c10Node : NodeOverview :=
  { remarks := none, hostname := none, version := none, available := true,
    system := some c10Sys, instanceInfo := none }

/-- **C10**: the status summary performs no clamping of the CPU fraction:
whatever `cpuUsage` value the system object carries is passed through
unmodified, and the out-of-range input 1.4 is rendered as "140.00%" rather
than being capped at 1.0. -/
theorem C10_cpu_no_clamping :
    (∀ (n : NodeOverview) (sys : SysInfo) (q : ℚ), n.system = some sys →
      sys.cpuUsage = some q → cpuFractionOf n = q)
    ∧ cpuFractionOf c10Node = 7 / 5
    ∧ (1 : ℚ) < cpuFractionOf c10Node
    ∧ nodeCpuPercent c10Node = "140.00%" := by
  refine ⟨?_, rfl, ?_, ?_⟩
  · intro n sys q hn hq
    simp [cpuFractionOf, hn, hq]
  · show (1 : ℚ) < 7 / 5
    norm_num
  · have h1 : cpuFractionOf c10Node * 100 = (140 : ℚ) := by
      show (7 : ℚ) / 5 * 100 = 140
      norm_num
    rw [nodeCpuPercent, h1, format2f]
    have h2 : (⌊(140 : ℚ) * 100 + 1 / 2⌋ : Int) = 14000 := by
      rw [Int.floor_eq_iff]
      constructor <;> norm_num
    rw [h2]
    decide

/-- **C10** witness: a node whose system object carries `cpuUsage = 1.4`
has its fraction passed through as 1.4. -/
theorem C10_cpu_no_clamping_witness :
    cpuFractionOf c10Node = 7 / 5 :=
  C10_cpu_no_clamping.1 c10Node c10Sys (7 / 5) rfl rfl

/-! ### Claims about identifier resolution -/

/-- **C1** (amended): an all-digit identifier with value `v` satisfying
`1 ≤ v ≤ len(instances)` resolves to the `(node_id, unique_id)` of the
instance at position `v`; a value of 0 or one exceeding the snapshot size
never indexes out of bounds but falls through to the name/unique-id lookup
on the trimmed identifier, so it yields a lookup miss exactly when that
fallback also misses (no ambiguous-name match, no name match, no unique-id
match). -/
theorem C1_position_resolution (d : InstanceData) (ident : String)
    (hdig : isDigitStr (pyStrip ident) = true) :
    (1 ≤ strToNat (pyStrip ident) → strToNat (pyStrip ident) ≤ d.instances.length →
      getInstanceByIdentifier d ident =
        (d.instances.get? (strToNat (pyStrip ident) - 1)).map (fun c => (c.daemonId, c.uuid)))
    ∧ ((strToNat (pyStrip ident) = 0 ∨ d.instances.length < strToNat (pyStrip ident)) →
      getInstanceByIdentifier d ident = fallbackLookup d (pyStrip ident))
    ∧ ((strToNat (pyStrip ident) = 0 ∨ d.instances.length < strToNat (pyStrip ident)) →
      pyStrip ident ∉ d.ambiguous_names →
      d.name_to_id (pyStrip ident) = none →
      d.uuid_to_id (pyStrip ident) = none →
      getInstanceByIdentifier d ident = none) := by
  refine ⟨?_, ?_, ?_⟩
  · intro h1 h2
    cases hg : d.instances.get? (strToNat (pyStrip ident) - 1) with
    | some inst =>
      simp only [getInstanceByIdentifier, hdig, if_true, Nat.lt_of_lt_of_le Nat.zero_lt_one h1,
        if_pos, hg]
      rfl
    | none =>
      exfalso
      rw [List.get?_eq_none] at hg
      omega
  · intro hout
    have hnone : (d.instances.get? (strToNat (pyStrip ident) - 1) = none) ∨
        strToNat (pyStrip ident) = 0 := by
      rcases hout with h0 | hgt
      · exact Or.inr h0
      · exact Or.inl (List.get?_eq_none.mpr (by omega))
    rcases hnone with hg | h0
    · by_cases h0 : strToNat (pyStrip ident) = 0
      · simp [getInstanceByIdentifier, hdig, h0]
      · simp only [getInstanceByIdentifier, hdig, if_true, Nat.pos_of_ne_zero h0, if_pos, hg]
    · simp [getInstanceByIdentifier, hdig, h0]
  · intro hout hamb hname huuid
    have h2 : getInstanceByIdentifier d ident = fallbackLookup d (pyStrip ident) := by
      rcases hout with h0 | hgt
      · simp [getInstanceByIdentifier, hdig, h0]
      · have hg : d.instances.get? (strToNat (pyStrip ident) - 1) = none :=
          List.get?_eq_none.mpr (by omega)
        by_cases h0 : strToNat (pyStrip ident) = 0
        · simp [getInstanceByIdentifier, hdig, h0]
        · simp only [getInstanceByIdentifier, hdig, if_true, Nat.pos_of_ne_zero h0, if_pos, hg]
    rw [h2, fallbackLookup, if_neg hamb, hname, huuid]

/-- **C1** witness: on the round-trip fixture (3 instances), position "2"
resolves to the instance at position 2, and the out-of-range digit "9"
(9 > 3, and "9" matches no name or unique id) yields a lookup miss. -/
theorem C1_position_resolution_witness :
    getInstanceByIdentifier (refresh fixC2) "2" = some ("n2", "u2")
    ∧ getInstanceByIdentifier (refresh fixC2) "9" = none := by
  constructor
  · rw [(C1_position_resolution (refresh fixC2) "2" (by decide)).1 (by decide) (by decide)]
    decide
  · exact (C1_position_resolution (refresh fixC2) "9" (by decide)).2.2 (by decide)
      (by decide) (by rfl) (by rfl)

/-- **C1** counterexample: in the snapshot refreshed from a node with a
single instance named "5", the all-digit identifier "5" has numeric value
5 exceeding the snapshot size 1, yet resolution does not yield a lookup
miss: it falls through to the name lookup and succeeds. -/
theorem C1_out_of_range_digit_not_miss :
    isDigitStr "5" = true
    ∧ (refresh fixC1).instances.length = 1
    ∧ getInstanceByIdentifier (refresh fixC1) "5" = some ("n1", "u9") := by
  refine ⟨by decide, by decide, by decide⟩

/-! ### Claim about the snapshot invariants -/

/-- **C4**: after every refresh, ambiguous names and the keys of
`name_to_id` are disjoint (an ambiguous name is never a key); every instance
whose name is not ambiguous appears in `name_to_id`; `uuid_to_id` has a key
for the unique id of every instance; and the recorded positions are the
contiguous integers 1..len(instances) in the order of the name-sorted
instance list (which is sorted by the ordinal string order). -/
theorem C4_snapshot_invariants (nodes : List NodeFetch) :
    (∀ s ∈ (refresh nodes).ambiguous_names, (refresh nodes).name_to_id s = none)
    ∧ (∀ c ∈ (refresh nodes).instances, c.name ∉ (refresh nodes).ambiguous_names →
        ((refresh nodes).name_to_id c.name).isSome = true)
    ∧ (∀ c ∈ (refresh nodes).instances, ((refresh nodes).uuid_to_id c.uuid).isSome = true)
    ∧ (refresh nodes).instances.map CachedInstance.index =
        (List.range (refresh nodes).instances.length).map (fun j => toString (1 + j))
    ∧ List.Sorted (fun a b : CachedInstance => strLe a.name b.name = true)
        (refresh nodes).instances := by
  refine ⟨?_, ?_, ?_, ?_, ?_⟩
  · intro s hs
    exact nameMapOf_eq_none_of_mem_amb _ _ _ hs
  · intro c hc hnamb
    obtain ⟨i, hi, hn, -, -⟩ := mem_cacheInstancesFrom hc
    exact nameMapOf_isSome_of _ _ _ ⟨i, hi, hn, hnamb⟩
  · intro c hc
    obtain ⟨i, hi, -, hu, -⟩ := mem_cacheInstancesFrom hc
    exact uuidMapOf_isSome_of _ _ ⟨i, hi, hu⟩
  · show (cacheInstancesFrom 1 (List.insertionSort nameLe (collectInstances nodes))).map
        CachedInstance.index =
      (List.range (cacheInstancesFrom 1
        (List.insertionSort nameLe (collectInstances nodes))).length).map
        (fun j => toString (1 + j))
    rw [cacheInstancesFrom_length, cacheInstancesFrom_map_index]
  · exact sorted_cacheInstancesFrom 1 _ (List.sorted_insertionSort nameLe _)

/-- **C4** witness, on the round-trip fixture: the ambiguous name "A" is
absent from `name_to_id`, the unique name "B" is present, and the unique id
"u2" is a key of `uuid_to_id`. -/
theorem C4_snapshot_invariants_witness :
    (refresh fixC2).name_to_id "A" = none
    ∧ ((refresh fixC2).name_to_id "B").isSome = true
    ∧ ((refresh fixC2).uuid_to_id "u2").isSome = true :=
  ⟨(C4_snapshot_invariants fixC2).1 "A" (by decide),
   (C4_snapshot_invariants fixC2).2.1
     { index := "3", name := "B", uuid := "u1", daemonId := "n1", status := none }
     (by decide) (by decide),
   (C4_snapshot_invariants fixC2).2.2.1
     { index := "2", name := "A", uuid := "u2", daemonId := "n2", status := none }
     (by decide)⟩

/-! ### Claim about ambiguous-name resolution -/

/-- **C3** (amended): in every refreshed snapshot, if two or more instances
share a name, then resolving that name fails with the ambiguous
classification — provided the name is not itself an in-range position
string (not all digits) and carries no surrounding whitespace, since the
positional step of the lookup runs first on the trimmed identifier.
Resolution by an instance's unique id still succeeds and returns that
instance's `(node_id, unique_id)`, provided the id is not all digits, has
no surrounding whitespace, does not collide with any instance name, and is
not shared with an instance on a different node (a later duplicate key
would overwrite the map entry). -/
theorem C3_ambiguity_resolution (nodes : List NodeFetch) :
    (∀ nm : String, 1 < ((refresh nodes).instances.map CachedInstance.name).count nm →
      pyStrip nm = nm → isDigitStr nm = false →
      classifyResolve (refresh nodes) nm = .ambiguous)
    ∧ (∀ c ∈ (refresh nodes).instances,
        pyStrip c.uuid = c.uuid → isDigitStr c.uuid = false →
        (∀ c2 ∈ (refresh nodes).instances, c2.name ≠ c.uuid) →
        (∀ c2 ∈ (refresh nodes).instances, c2.uuid = c.uuid → c2.daemonId = c.daemonId) →
        getInstanceByIdentifier (refresh nodes) c.uuid = some (c.daemonId, c.uuid)) := by
  constructor
  · intro nm hcount htrim hdig
    have hmem : nm ∈ (refresh nodes).ambiguous_names := by
      show nm ∈ ambiguousNames (List.insertionSort nameLe (collectInstances nodes))
      apply mem_ambiguousNames.mpr
      rw [← cacheInstancesFrom_map_name 1 (List.insertionSort nameLe (collectInstances nodes))]
      exact hcount
    have hres : getInstanceByIdentifier (refresh nodes) nm = none := by
      have hstep : getInstanceByIdentifier (refresh nodes) nm =
          fallbackLookup (refresh nodes) nm := by
        simp [getInstanceByIdentifier, htrim, hdig]
      rw [hstep]
      simp only [fallbackLookup, if_pos hmem]
    simp [classifyResolve, hres, hmem]
  · intro c hc htrim hdig hnoname hdm
    obtain ⟨i, hi, hin, hiu, hid⟩ := mem_cacheInstancesFrom
      (show c ∈ cacheInstancesFrom 1 (List.insertionSort nameLe (collectInstances nodes))
        from hc)
    have hnnS : ∀ j ∈ List.insertionSort nameLe (collectInstances nodes), j.name ≠ c.uuid := by
      intro j hj he
      obtain ⟨c2, hc2, h2n, -, -⟩ := cacheInstancesFrom_mem_of (k := 1) hj
      exact hnoname c2 hc2 (h2n.trans he)
    have hambn : c.uuid ∉ (refresh nodes).ambiguous_names := by
      intro hmem
      have h1 : 1 < ((List.insertionSort nameLe (collectInstances nodes)).map
          Inst.name).count c.uuid := mem_ambiguousNames.mp hmem
      have hpos : c.uuid ∈ (List.insertionSort nameLe (collectInstances nodes)).map
          Inst.name := List.count_pos_iff.mp (lt_trans Nat.zero_lt_one h1)
      obtain ⟨j, hj, hjn⟩ := List.mem_map.mp hpos
      exact hnnS j hj hjn
    have hnm : (refresh nodes).name_to_id c.uuid = none :=
      nameMapOf_eq_none_of_not_mem _ _ _ hnnS
    obtain ⟨v, hv⟩ := Option.isSome_iff_exists.mp
      (uuidMapOf_isSome_of (List.insertionSort nameLe (collectInstances nodes)) c.uuid
        ⟨i, hi, hiu⟩)
    obtain ⟨j, hj, hju, hveq⟩ := uuidMapOf_eq_some _ _ v hv
    obtain ⟨c2, hc2, h2n, h2u, h2d⟩ := cacheInstancesFrom_mem_of (k := 1) hj
    have hjd : j.daemonId = c.daemonId := by
      rw [← h2d]
      exact hdm c2 hc2 (h2u.trans hju)
    have hstep : getInstanceByIdentifier (refresh nodes) c.uuid =
        fallbackLookup (refresh nodes) c.uuid := by
      simp [getInstanceByIdentifier, htrim, hdig]
    rw [hstep]
    simp only [fallbackLookup, if_neg hambn, hnm]
    show uuidMapOf (List.insertionSort nameLe (collectInstances nodes)) c.uuid =
      some (c.daemonId, c.uuid)
    rw [hv, hveq, hju, hjd]

/-- **C3** witness: on the round-trip fixture, the shared name "A" resolves
to the ambiguous classification, while the unique id "u3" of one of the two
"A" instances still resolves to that instance. -/
theorem C3_ambiguity_resolution_witness :
    classifyResolve (refresh fixC2) "A" = .ambiguous
    ∧ getInstanceByIdentifier (refresh fixC2) "u3" = some ("n1", "u3") :=
  ⟨(C3_ambiguity_resolution fixC2).1 "A" (by decide) (by decide) (by decide),
   (C3_ambiguity_resolution fixC2).2
     { index := "1", name := "A", uuid := "u3", daemonId := "n1", status := none }
     (by decide) (by decide) (by decide) (by decide) (by decide)⟩

/-- **C3** counterexample: two instances share the all-digit name "1"; the
claim says resolving "1" must fail as ambiguous, but the positional step
runs first: "1" is a valid position and resolution succeeds with the
instance at position 1. -/
theorem C3_digit_name_bypasses_ambiguity :
    1 < ((refresh fixC3).instances.map CachedInstance.name).count "1"
    ∧ classifyResolve (refresh fixC3) "1" = .found "n1" "ua"
    ∧ ¬ (classifyResolve (refresh fixC3) "1" = .ambiguous) := by
  refine ⟨by decide, by decide, by decide⟩

/-! ### Claim about the snapshot round-trip -/

/-- **C2** (amended): building a snapshot from the fixture with nodes
`[n1, n2]` and instances `[B(u1)@n1, A(u2)@n2, A(u3)@n1]` yields the
instance order `[A(u3), A(u2), B(u1)]` with positions 1,2,3 — collection is
node-major, so node n1 contributes B(u1), A(u3) before node n2 contributes
A(u2), and the stable sort keeps A(u3) ahead of A(u2) — with
`ambiguous_names = {"A"}` and a `name_index` containing only "B"; in
general the refresh sorts all collected instances by name with a stable,
case-sensitive ordinal comparison (the snapshot order is sorted by the
code-point order and preserves the collection order within each name). -/
theorem C2_snapshot_roundtrip :
    (refresh fixC2).instances =
      [{ index := "1", name := "A", uuid := "u3", daemonId := "n1", status := none },
       { index := "2", name := "A", uuid := "u2", daemonId := "n2", status := none },
       { index := "3", name := "B", uuid := "u1", daemonId := "n1", status := none }]
    ∧ (refresh fixC2).ambiguous_names = ["A"]
    ∧ (refresh fixC2).name_to_id "B" = some ("n1", "u1")
    ∧ (∀ s : String, (refresh fixC2).name_to_id s ≠ none → s = "B")
    ∧ (∀ (nodes : List NodeFetch) (n : String),
        (((refresh nodes).instances.filter (fun c => decide (c.name = n))).map cSig) =
          (((collectInstances nodes).filter (fun i => decide (i.name = n))).map iSig))
    ∧ (∀ nodes : List NodeFetch,
        List.Sorted (fun a b : CachedInstance => strLe a.name b.name = true)
          (refresh nodes).instances) := by
  refine ⟨by decide, by decide, by decide, ?_, ?_, ?_⟩
  · intro s hs
    cases h : (refresh fixC2).name_to_id s with
    | none => exact absurd h hs
    | some v =>
      obtain ⟨i, hi, hnm, hnamb, -⟩ := nameMapOf_eq_some
        (ambiguousNames (List.insertionSort nameLe (collectInstances fixC2)))
        (List.insertionSort nameLe (collectInstances fixC2)) s v h
      have hS : List.insertionSort nameLe (collectInstances fixC2) =
          [{ name := "A", uuid := "u3", daemonId := "n1", status := none },
           { name := "A", uuid := "u2", daemonId := "n2", status := none },
           { name := "B", uuid := "u1", daemonId := "n1", status := none }] := by decide
      rw [hS] at hi hnamb
      have hA : ambiguousNames
          [({ name := "A", uuid := "u3", daemonId := "n1", status := none } : Inst),
           { name := "A", uuid := "u2", daemonId := "n2", status := none },
           { name := "B", uuid := "u1", daemonId := "n1", status := none }] = ["A"] := by decide
      rw [hA] at hnamb
      simp only [List.mem_cons, List.not_mem_nil, or_false] at hi
      rcases hi with rfl | rfl | rfl
      · exact absurd (by decide : ("A" : String) ∈ ["A"]) hnamb
      · exact absurd (by decide : ("A" : String) ∈ ["A"]) hnamb
      · exact hnm.symm
  · intro nodes n
    show ((cacheInstancesFrom 1 (List.insertionSort nameLe (collectInstances nodes))).filter
        (fun c => decide (c.name = n))).map cSig = _
    have e1 : (fun c : CachedInstance => decide (c.name = n)) =
        (fun t : String × String × String => decide (t.1 = n)) ∘ cSig := rfl
    have e2 : (fun i : Inst => decide (i.name = n)) =
        (fun t : String × String × String => decide (t.1 = n)) ∘ iSig := rfl
    rw [e1, ← List.filter_map, cacheInstancesFrom_map_sig, List.filter_map, ← e2,
      filter_insertionSort_name]
  · intro nodes
    exact sorted_cacheInstancesFrom 1 _ (List.sorted_insertionSort nameLe _)

/-- **C2** witness: the stability conjunct evaluated on the fixture at name
"A", and the only-"B" conjunct discharged at "B". -/
theorem C2_snapshot_roundtrip_witness :
    (((refresh fixC2).instances.filter (fun c => decide (c.name = "A"))).map cSig =
      ((collectInstances fixC2).filter (fun i => decide (i.name = "A"))).map iSig)
    ∧ "B" = "B" :=
  ⟨C2_snapshot_roundtrip.2.2.2.2.1 fixC2 "A",
   C2_snapshot_roundtrip.2.2.2.1 "B" (by decide)⟩

/-- **C2** counterexample: the claim's expected tie order [A(u2), A(u3)] is
not what the refresh produces; the snapshot's uuid order is
["u3", "u2", "u1"], not ["u2", "u3", "u1"], because collection is
node-major and the sort is stable. -/
theorem C2_fixture_order_differs :
    ¬ ((refresh fixC2).instances.map CachedInstance.uuid = ["u2", "u3", "u1"]) := by decide
